import Mathlib

/-!
Shallow embedding of the knowledge-graph ingestion runtime (Rust sources under
`runtime/src`): the JSON value model, the atomic JSON KV store and doc-status
store, the token chunker, the scheduler's chunk selection and result
processing, the worker-pool iteration, and the pipeline intake front.
Each definition mirrors one Rust item; theorems settle the frozen claims.
SHA-256 (`compute_mdhash_id`'s hasher) is abstracted as a function parameter
`h : String → String`, since no claim depends on properties of the digest.
-/

namespace KG

/-- Model of `serde_json::Value`: JSON values with object fields kept as an
association list (first binding wins on lookup, as in the Rust map reads). -/
inductive Json where
  | null : Json
  | bool : Bool → Json
  | num : Int → Json
  | str : String → Json
  | arr : List Json → Json
  | obj : List (String × Json) → Json
deriving Repr

/-- Model of `Value::get(key)` on objects (`None` on non-objects). -/
def Json.getField : Json → String → Option Json
  | .obj fields, key => fields.lookup key
  | _, _ => none

/-- Model of `Value::as_str`. -/
def Json.asStr : Json → Option String
  | .str s => some s
  | _ => none

/-- Model of `Value::as_u64` (integral, non-negative). -/
def Json.asNat : Json → Option Nat
  | .num n => if n < 0 then none else some n.toNat
  | _ => none

/-- Model of `Value::as_i64`. -/
def Json.asInt : Json → Option Int
  | .num n => some n
  | _ => none

/-- Model of `utils::compute_mdhash_id`: `format!("{}{:x}", prefix, sha256(content))`,
with the SHA-256 hex digest abstracted as the parameter `h`. -/
def compute_mdhash_id (h : String → String) (content : String) (pfx : String) : String :=
  pfx ++ h content

/-! ## `pipeline.rs`: `summarize_content` (claim C7) -/

/-- Code points with the Unicode `White_Space` property, the set removed by
Rust's `str::trim`. -/
def rust_is_whitespace (c : Char) : Bool :=
  [0x09, 0x0A, 0x0B, 0x0C, 0x0D, 0x20, 0x85, 0xA0, 0x1680,
   0x2000, 0x2001, 0x2002, 0x2003, 0x2004, 0x2005, 0x2006, 0x2007,
   0x2008, 0x2009, 0x200A, 0x2028, 0x2029, 0x202F, 0x205F, 0x3000].contains c.toNat

/-- Model of Rust `str::trim`: strip `White_Space` characters from both ends. -/
def rust_trim (s : List Char) : List Char :=
  ((s.dropWhile rust_is_whitespace).reverse.dropWhile rust_is_whitespace).reverse

/-- Number of bytes of the UTF-8 encoding of one scalar value. -/
def char_utf8_size (c : Char) : Nat :=
  if c.toNat < 0x80 then 1
  else if c.toNat < 0x800 then 2
  else if c.toNat < 0x10000 then 3
  else 4

/-- Byte length of the UTF-8 encoding of a string (Rust `str::len`). -/
def utf8_len (s : List Char) : Nat :=
  (s.map char_utf8_size).sum

/-- Model of the Rust byte-slice `&s[..n]`: `some` prefix when byte index `n`
falls on a character boundary, `none` when the slice would panic. -/
def take_bytes (n : Nat) : List Char → Option (List Char)
  | [] => if n = 0 then some [] else none
  | c :: cs =>
      if n = 0 then some []
      else if char_utf8_size c ≤ n then (take_bytes (n - char_utf8_size c) cs).map (c :: ·)
      else none

/-- Model of `pipeline.rs::summarize_content`: trim, and when the byte length
exceeds 200 append an ellipsis to the first 200 bytes; `none` models the panic
of `&trimmed[..MAX_LEN]` when byte 200 is not a character boundary. -/
def summarize_content (content : List Char) : Option (List Char) :=
  let trimmed := rust_trim content
  if utf8_len trimmed ≤ 200 then some trimmed
  else
    match take_bytes 200 trimmed with
    | some pre => some (pre ++ ['…'])
    | none => none

/-- Model of the `content_length` computation in `enqueue_documents`:
`content.chars().count()`. -/
def content_length (content : List Char) : Nat :=
  content.length

/-! ## `utils.rs`: `chunking_by_token_size` (claim C8) -/

/-- Rust `str::trim` on `String` values. -/
def rust_trim_str (s : String) : String :=
  String.mk (rust_trim s.data)

/-- Model of `utils::TokenChunk`. -/
structure TokenChunkM where
  tokens : Nat
  content : String
  chunk_order_index : Nat
deriving Repr, DecidableEq

/-- Model of the `Tokenizer` trait: a BPE with `encode` and fallible `decode`. -/
structure TokenizerM where
  encode : String → List Nat
  decode : List Nat → Except String String

/-- Sliding-window loop shared by the chunking branches: from `start`, emit
`(end - start, decode(tokens[start..end]))` with `end = min (start + M) len`,
stop when `end` reaches the end, else advance by `step`. The `0 < step`
guard makes the recursion total; every caller passes `step = M - V > 0`. -/
def window_slices (t : TokenizerM) (toks : List Nat) (M step : Nat) (start : Nat) :
    Except String (List (Nat × String)) :=
  if _h : start < toks.length ∧ 0 < step then
    let e := min (start + M) toks.length
    match t.decode ((toks.drop start).take (e - start)) with
    | .error msg => .error msg
    | .ok s =>
        if e = toks.length then .ok [(e - start, s)]
        else (window_slices t toks M step (start + step)).map ((e - start, s) :: ·)
  else .ok []
termination_by toks.length - start
decreasing_by
  simp_wf
  omega

/-- Emission loop turning `(token_len, text)` pairs into `TokenChunk`s with
the running index (`results.len()` at push time) and trimmed content. -/
def emit_chunks (l : List (Nat × String)) (idx : Nat) : List TokenChunkM :=
  match l with
  | [] => []
  | p :: rest => TokenChunkM.mk p.1 (rust_trim_str p.2) idx :: emit_chunks rest (idx + 1)

/-- Model of `utils::chunking_by_token_size`. The no-delimiter branch encodes
the whole string and slides the window; the delimiter branches split first.
`chunk_order_index` is the running `results.len()` at push time, i.e. the
position in the emitted list; `content` is trimmed on emission. -/
def chunking_by_token_size (t : TokenizerM) (content : String)
    (split_by_character : Option String) (split_by_character_only : Bool)
    (overlap_token_size max_token_size : Nat) : Except String (List TokenChunkM) :=
  if overlap_token_size ≥ max_token_size then
    .error "overlap_token_size must be smaller than max_token_size"
  else
    match split_by_character with
    | some delim =>
        let raw_chunks := content.splitOn delim
        let step := max_token_size - overlap_token_size
        let new_chunks : Except String (List (Nat × String)) :=
          if split_by_character_only then
            .ok (raw_chunks.map (fun c => ((t.encode c).length, c)))
          else
            raw_chunks.foldlM
              (fun acc c =>
                let tokenized := t.encode c
                if tokenized.length > max_token_size then
                  (window_slices t tokenized max_token_size step 0).map (acc ++ ·)
                else
                  pure (acc ++ [(tokenized.length, c)]))
              []
        new_chunks.map (fun l => emit_chunks l 0)
    | none =>
        let toks := t.encode content
        if toks.isEmpty then .ok []
        else
          (window_slices t toks max_token_size (max_token_size - overlap_token_size) 0).map
            (fun l => emit_chunks l 0)

/-! ## `storage/json_kv.rs`: the atomic JSON KV store (claims C4, C9) -/

/-- Insert-or-replace into an association list, modelling `HashMap::insert`
(replacement keeps the position of the old binding, a new key appends). -/
def assoc_insert {α : Type} (m : List (String × α)) (k : String) (v : α) :
    List (String × α) :=
  match m with
  | [] => [(k, v)]
  | p :: rest => if p.1 = k then (k, v) :: rest else p :: assoc_insert rest k v

/-- Model of `JsonKvStorage::normalize_record`: coerce to an object, default
`create_time`/`update_time` to 0, set `_id = key`. -/
def normalize_record (key : String) (value : Json) : Json :=
  let fields := match value with
    | .obj m => m
    | other => [("value", other)]
  let fields := if (fields.lookup "create_time").isSome then fields
    else fields ++ [("create_time", .num 0)]
  let fields := if (fields.lookup "update_time").isSome then fields
    else fields ++ [("update_time", .num 0)]
  .obj (assoc_insert fields "_id" (.str key))

/-- Model of `JsonKvStorage::decorate_upsert_record`: ensure `llm_cache_list`
for `text_chunks` namespaces, preserve `create_time` when present (else set it
to `now`), set `update_time = now` and `_id = key`. -/
def decorate_upsert_record (requires_cache_list : Bool) (now : Int) (key : String)
    (value : Json) : Json :=
  let fields := match value with
    | .obj m => m
    | other => [("value", other)]
  let fields := if requires_cache_list then
      (if (fields.lookup "llm_cache_list").isSome then fields
       else fields ++ [("llm_cache_list", .arr [])])
    else fields
  let fields := if (fields.lookup "create_time").isSome then
      assoc_insert fields "update_time" (.num now)
    else
      assoc_insert (fields ++ [("create_time", .num now)]) "update_time" (.num now)
  .obj (assoc_insert fields "_id" (.str key))

/-- State of one `JsonKvStorage`: the in-memory map, the dirty flag, and the
last successfully flushed on-disk snapshot. -/
structure KvFileM where
  data : List (String × Json)
  dirty : Bool
  disk : List (String × Json)

/-- Model of `JsonKvStorage::upsert`: decorate and insert every record, then
set the dirty flag; an empty batch is a no-op. -/
def kv_upsert (requires_cache_list : Bool) (now : Int) (f : KvFileM)
    (records : List (String × Json)) : KvFileM :=
  if records.isEmpty then f
  else
    { f with
      data := records.foldl
        (fun d p => assoc_insert d p.1 (decorate_upsert_record requires_cache_list now p.1 p.2))
        f.data
      dirty := true }

/-- Model of `JsonKvStorage::get_all`. -/
def kv_get_all (f : KvFileM) : List (String × Json) :=
  f.data.map (fun p => (p.1, normalize_record p.1 p.2))

/-- Model of `JsonKvStorage::get_by_id`. -/
def kv_get_by_id (f : KvFileM) (id : String) : Option Json :=
  (f.data.lookup id).map (normalize_record id)

/-- Model of `JsonKvStorage::filter_keys`: the input keys not present. -/
def kv_filter_keys (f : KvFileM) (keys : List String) : List String :=
  keys.filter (fun k => (f.data.lookup k).isNone)

/-- Model of `JsonKvStorage::sync_if_dirty`. The source runs
`self.dirty.swap(false, SeqCst)` first: a clean flag short-circuits, and a
dirty flag is cleared BEFORE the write is attempted; a failed write
(`writeOk = false`) returns the error with the flag already cleared. -/
def kv_sync_if_dirty (writeOk : Bool) (f : KvFileM) : KvFileM × Except String Unit :=
  if !f.dirty then (f, .ok ())
  else
    let f := { f with dirty := false }
    if writeOk then ({ f with disk := f.data }, .ok ())
    else (f, .error "failed to write kv store")

/-! ### Legacy cache migration (`json_kv.rs`, claim C9) -/

/-- Model of `json_kv.rs::is_legacy_cache_structure`: every value of the inner
map is an object containing a `return` field. -/
def is_legacy_cache_structure (inner : List (String × Json)) : Bool :=
  inner.all (fun p =>
    match p.2 with
    | .obj o => (o.lookup "return").isSome
    | _ => false)

/-- Model of `json_kv.rs::generate_cache_key`. -/
def generate_cache_key (mode cache_type cache_hash : String) : String :=
  mode ++ ":" ++ cache_type ++ ":" ++ cache_hash

/-- The `cache_type` of one legacy entry object:
`get("cache_type").and_then(as_str).unwrap_or("extract")`. -/
def cache_type_of (entry_obj : List (String × Json)) : String :=
  (((entry_obj.lookup "cache_type").bind Json.asStr)).getD "extract"

/-- Inner loop of the migration over one legacy value: each object entry
`{hash → entry_obj}` of mode `mode` is flattened to
`"{mode}:{cache_type}:{hash}"` and counted; a non-object entry is inserted
under its own hash key without counting. -/
def migrate_entry_fold (mode : String) (acc : List (String × Json) × Nat)
    (entry : String × Json) : List (String × Json) × Nat :=
  match entry.2 with
  | .obj entry_obj =>
      (assoc_insert acc.1 (generate_cache_key mode (cache_type_of entry_obj) entry.1)
        (.obj entry_obj),
       acc.2 + 1)
  | other => (assoc_insert acc.1 entry.1 other, acc.2)

/-- Outer loop of the migration over the top-level map: a value that is an
object in legacy form is flattened entry by entry, anything else is carried
over unchanged. -/
def migrate_value_fold (acc : List (String × Json) × Nat) (kv : String × Json) :
    List (String × Json) × Nat :=
  match kv.2 with
  | .obj inner =>
      if is_legacy_cache_structure inner then
        inner.foldl (migrate_entry_fold kv.1) acc
      else (assoc_insert acc.1 kv.1 (.obj inner), acc.2)
  | other => (assoc_insert acc.1 kv.1 other, acc.2)

/-- Model of `key.split(':').count()`: for a single-character delimiter this
is the number of `:` characters plus one (empty pieces included). -/
def colon_split_count (key : String) : Nat :=
  (key.data.filter (fun c => c = ':')).length + 1

/-- Model of `JsonKvStorage::migrate_legacy_cache_structure`. Returns the
migrated map and whether the migrated map was persisted to disk (the source
calls `write_json_file` when `migration_count > 0`). The `looks_flat` guard
inspects the FIRST key only: when it splits on `:` into exactly three parts
the whole store is assumed already flat and nothing is migrated. -/
def migrate_legacy_cache_structure (data : List (String × Json)) :
    List (String × Json) × Bool :=
  if data.isEmpty then (data, false)
  else
    let looks_flat := match data.head? with
      | some p => colon_split_count p.1 == 3
      | none => false
    if looks_flat then (data, false)
    else
      let result := data.foldl migrate_value_fold ([], 0)
      (result.1, result.2 > 0)

/-- Model of `JsonKvStorage::initialize`: load, migrate, clear the dirty flag. -/
def kv_initialize (loaded : List (String × Json)) : KvFileM × Bool :=
  let m := migrate_legacy_cache_structure loaded
  (⟨m.1, false, if m.2 then m.1 else loaded⟩, m.2)

/-! ## `storage/json_doc_status.rs`: the doc-status store (claim C4) -/

/-- Model of `storage::DocStatus`. The enum has exactly these five variants;
there is no `PARTIALLY_FAILED` variant in the source. -/
inductive DocStatusM where
  | PENDING
  | PROCESSING
  | PROCESSED
  | FAILED
  | ALL
deriving Repr, DecidableEq

/-- Model of `storage::DocProcessingStatus`. -/
structure DocProcessingStatusM where
  id : Option String
  status : DocStatusM
  content_summary : Option String
  content_length : Option Int
  created_at : Option String
  updated_at : Option String
  file_path : Option String
  track_id : Option String
  chunks_list : Option (List String)
  metadata : Option Json
  error_msg : Option String
deriving Repr

/-- Model of `json_doc_status.rs::DocRecord`. -/
structure DocRecordM where
  status : DocStatusM
  content_summary : Option String
  content_length : Option Int
  created_at : Option String
  updated_at : Option String
  file_path : Option String
  track_id : Option String
  chunks_list : List String
  metadata : Json
  error_msg : Option String
deriving Repr

/-- Model of `DocRecord::normalize`: default `file_path` to `"no-file-path"`
and null `metadata` to `{}`. -/
def DocRecordM.normalize (r : DocRecordM) : DocRecordM :=
  let r := if r.file_path.isNone then { r with file_path := some "no-file-path" } else r
  match r.metadata with
  | .null => { r with metadata := .obj [] }
  | _ => r

/-- State of the `JsonDocStatusStorage`: in-memory map, dirty flag, disk
snapshot. -/
structure DocStatusFileM where
  data : List (String × DocRecordM)
  dirty : Bool
  disk : List (String × DocRecordM)

/-- Model of `JsonDocStatusStorage::sync_if_dirty`: identical swap-first
pattern to the KV store. -/
def doc_sync_if_dirty (writeOk : Bool) (f : DocStatusFileM) :
    DocStatusFileM × Except String Unit :=
  if !f.dirty then (f, .ok ())
  else
    let f := { f with dirty := false }
    if writeOk then ({ f with disk := f.data }, .ok ())
    else (f, .error "failed to write doc status")

/-- Conversion used by `JsonDocStatusStorage::upsert`: build a `DocRecord`
from a `DocProcessingStatus` and normalize it. -/
def doc_record_of_status (s : DocProcessingStatusM) : DocRecordM :=
  DocRecordM.normalize
    { status := s.status
      content_summary := s.content_summary
      content_length := s.content_length
      created_at := s.created_at
      updated_at := s.updated_at
      file_path := s.file_path
      track_id := s.track_id
      chunks_list := s.chunks_list.getD []
      metadata := s.metadata.getD (.obj [])
      error_msg := s.error_msg }

/-- Model of `JsonDocStatusStorage::upsert`: normalize and insert every
record, mark dirty, then immediately `sync_if_dirty`. -/
def doc_status_upsert (writeOk : Bool) (f : DocStatusFileM)
    (records : List (String × DocProcessingStatusM)) :
    DocStatusFileM × Except String Unit :=
  if records.isEmpty then (f, .ok ())
  else
    let data := records.foldl
      (fun d p => assoc_insert d p.1 (doc_record_of_status p.2)) f.data
    doc_sync_if_dirty writeOk { f with data := data, dirty := true }

/-! ## `pipeline/scheduler.rs`: jobs, chunk states, chunk selection, result
processing and the worker pool (claims C1, C2, C3, C5, C6) -/

/-- Model of `scheduler.rs::JobStatus`. -/
inductive JobStatusM where
  | Pending
  | Processing
  | Done
  | Failed
  | PartiallyFailed
deriving Repr, DecidableEq

/-- Model of `scheduler.rs::ChunkStatus`. -/
inductive ChunkStatusM where
  | Success
  | Failed
  | Pending
  | Running
deriving Repr, DecidableEq

/-- Model of `ai/schemas.rs` entity payload. -/
structure EntityM where
  entity_name : String
  entity_type : String
  entity_description : String
deriving Repr, DecidableEq

/-- Model of `ai/schemas.rs` relationship payload. -/
structure RelationshipM where
  source_entity : String
  target_entity : String
  relationship_keywords : List String
  relationship_description : String
deriving Repr, DecidableEq

/-- Model of `ai/schemas.rs::EntitiesRelationships`. -/
structure EntitiesRelationshipsM where
  entities : List EntityM
  relationships : List RelationshipM
deriving Repr, DecidableEq

/-- Model of `chunker.rs::Chunk`. -/
structure ChunkR where
  id : String
  content : String
  order : Nat
  token_count : Int
deriving Repr, DecidableEq

/-- Model of `scheduler.rs::ChunkState`. -/
structure ChunkStateM where
  chunk_id : String
  doc_id : String
  chunk_status : ChunkStatusM
  chunk_order_index : Nat
  content : String
  error : Option String
  output : Option EntitiesRelationshipsM
  max_retries : Nat
  current_retry : Nat
  created_at : String
  oai_resp_id : Option String
deriving Repr, DecidableEq

/-- Model of `scheduler.rs::Job`. -/
structure JobM where
  job_id : String
  doc_id : String
  max_retries : Nat
  current_retry : Nat
  job_status : JobStatusM
  chunks : List ChunkStateM
  created_at : String
  next_run_at : Nat
  last_error : Option String
deriving Repr, DecidableEq

/-- Model of `utils.rs::chunk_to_chunk_state`: every materialized chunk state
starts `Pending` with `max_retries = 10` and `current_retry = 0`. -/
def chunk_to_chunk_state (chunks : List ChunkR) (doc_id : String) (now : String) :
    List ChunkStateM :=
  chunks.map (fun c =>
    { chunk_id := c.id
      doc_id := doc_id
      chunk_status := .Pending
      chunk_order_index := c.order
      content := c.content
      error := none
      output := none
      max_retries := 10
      current_retry := 0
      created_at := now
      oai_resp_id := none })

/-- Model of `Scheduler::get_pending_chunks_for_doc`. The filter condition is
translated with Rust's operator precedence, where `&&` binds tighter than
`||`: `status == Pending || (status == Failed && full_doc_id == doc_id)`. -/
def get_pending_chunks_for_doc (text_chunks : List (String × Json)) (doc_id : String) :
    List ChunkR :=
  let all := text_chunks.map (fun p => (p.1, normalize_record p.1 p.2))
  let pending_chunks := all.filter (fun p =>
    ((p.2.getField "status").bind Json.asStr == some "Pending")
    || (((p.2.getField "status").bind Json.asStr == some "Failed")
        && ((p.2.getField "full_doc_id").bind Json.asStr == some doc_id)))
  pending_chunks.filterMap (fun p =>
    ((p.2.getField "content").bind Json.asStr).bind (fun content =>
      ((p.2.getField "chunk_order_index").bind Json.asNat).bind (fun order =>
        (((p.2.getField "token").or (p.2.getField "tokens")).bind Json.asInt).map
          (fun token_count => ChunkR.mk p.1 content order token_count))))

/-- Model of `scheduler.rs::JobResult`. -/
structure JobResultM where
  entity_relationships : EntitiesRelationshipsM
  chunk_id : String
  job_id : String
  doc_id : String
  chunk_order_index : Nat
deriving Repr, DecidableEq

/-- Serialization of an `Option<&String>` field inside `json!`: `None`
becomes JSON `null`. -/
def opt_str_json : Option String → Json
  | none => .null
  | some s => .str s

/-- Model of the payload-building loops of `Scheduler::process_chunk_result`:
build `entities_to_upsert` keyed by `entity_id`, the per-batch
`entity_name → entity_id` map, and `relationships_to_upsert`, whose
`source_entity_id`/`target_entity_id` fields are the (possibly absent, hence
null) lookups into that map. -/
def process_chunk_result_payloads (h : String → String) (jr : JobResultM) :
    List (String × Json) × List (String × Json) :=
  let step1 := jr.entity_relationships.entities.foldl
    (fun (acc : List (String × Json) × List (String × String)) entity =>
      let entity_id := compute_mdhash_id h
        (jr.doc_id ++ ":" ++ entity.entity_name ++ ":" ++ entity.entity_type) "entity-"
      (assoc_insert acc.1 entity_id (Json.obj
        [("entity_name", .str entity.entity_name),
         ("entity_type", .str entity.entity_type),
         ("entity_description", .str entity.entity_description),
         ("doc_id", .str jr.doc_id),
         ("chunk_id", .str jr.chunk_id),
         ("chunk_order_index", .num jr.chunk_order_index)]),
       assoc_insert acc.2 entity.entity_name entity_id))
    ([], [])
  let entity_name_to_entity_id_mapping := step1.2
  let relationships_to_upsert := jr.entity_relationships.relationships.foldl
    (fun acc rel =>
      let relation_id := compute_mdhash_id h
        (jr.doc_id ++ ":" ++ rel.source_entity ++ ":" ++ rel.target_entity) "rel-"
      assoc_insert acc relation_id (Json.obj
        [("source_entity_id", opt_str_json (entity_name_to_entity_id_mapping.lookup rel.source_entity)),
         ("target_entity_id", opt_str_json (entity_name_to_entity_id_mapping.lookup rel.target_entity)),
         ("keywords", .arr (rel.relationship_keywords.map Json.str)),
         ("description", .str rel.relationship_description),
         ("doc_id", .str jr.doc_id),
         ("chunk_id", .str jr.chunk_id)]))
    []
  (step1.1, relationships_to_upsert)

/-- Pipeline-level state visible to `Scheduler::process_chunk_result`. -/
structure SchedulerStateM where
  jobs_map : List (String × JobM)
  full_entities : KvFileM
  full_relations : KvFileM
  doc_status : List (String × DocRecordM)

/-- Update the first element satisfying the predicate (`iter_mut().find`). -/
def update_first {α : Type} (p : α → Bool) (f : α → α) : List α → List α
  | [] => []
  | x :: xs => if p x then f x :: xs else x :: update_first p f xs

/-- Model of `Scheduler::process_chunk_result` for an arrived `JobResult`:
flip the matching `ChunkState` to `Success` and store its output, then upsert
the entity and relationship payloads when non-empty. The function performs no
document-status rollup of any kind: `doc_status` is never read or written,
`Queue::mark_done`/`mark_failed` are never called, and the job's status is
untouched. (`persist_all` only flushes dirty stores and is not modelled.) -/
def process_chunk_result (h : String → String) (now : Int) (st : SchedulerStateM)
    (jr : JobResultM) : SchedulerStateM :=
  let set_success := fun (c : ChunkStateM) =>
    { c with chunk_status := ChunkStatusM.Success, output := some jr.entity_relationships }
  let jobs_map := update_first (fun pr => pr.1 == jr.job_id)
    (fun pr =>
      let chunks := update_first (fun c => c.chunk_id == jr.chunk_id) set_success pr.2.chunks
      (pr.1, { pr.2 with chunks := chunks }))
    st.jobs_map
  let payloads := process_chunk_result_payloads h jr
  let full_entities := if payloads.1.isEmpty then st.full_entities
    else kv_upsert false now st.full_entities payloads.1
  let full_relations := if payloads.2.isEmpty then st.full_relations
    else kv_upsert false now st.full_relations payloads.2
  { st with jobs_map := jobs_map
            full_entities := full_entities
            full_relations := full_relations }

/-! ### Worker-pool iteration (`Worker::spawn_pool`, claims C3, C6) -/

/-- Observable events of one worker iteration, in program order. -/
inductive WEventM where
  | got_by_id (found : Bool)
  | upsert_chunk (ok : Bool)
  | sync_chunks (ok : Bool)
  | send_result
  | resend_dispatch
deriving Repr, DecidableEq

/-- Event trace of one worker-pool iteration body (`Worker::spawn_pool`),
after the extractor returned (`extract_ok`). On success: read the chunk
record; when found, upsert `status = "Success"` and, when the upsert
succeeded, flush; then send the `JobResult` UNCONDITIONALLY. On failure:
read the record; when found, upsert `status = "Failed"` plus the error,
flush on upsert success, and resend the dispatch into `work_tx`; no
`JobResult` is ever sent on the failure path. -/
def worker_iteration_trace (extract_ok found upsert_ok sync_ok : Bool) : List WEventM :=
  if extract_ok then
    (if found then
      [.got_by_id true, .upsert_chunk upsert_ok]
        ++ (if upsert_ok then [.sync_chunks sync_ok] else [])
     else [.got_by_id false])
    ++ [.send_result]
  else
    if found then
      [.got_by_id true, .upsert_chunk upsert_ok]
        ++ (if upsert_ok then [.sync_chunks sync_ok] else [])
        ++ [.resend_dispatch]
    else [.got_by_id false]

/-- The chunk state resent by one failed worker iteration: the source sends
the SAME `job_dispatch` back (`work_tx.send(job_dispatch)`); `current_retry`
is never read, incremented, or compared against `max_retries`. `none` when
nothing is resent (success, or chunk record not found). -/
def worker_iteration_resend (extract_ok found : Bool) (cs : ChunkStateM) :
    Option ChunkStateM :=
  if extract_ok then none
  else if found then some cs
  else none

/-- The chunk state carried by the dispatch after `n` failed iterations. -/
def failing_retry_chunk (cs : ChunkStateM) : Nat → ChunkStateM
  | 0 => cs
  | n + 1 =>
      match worker_iteration_resend false true (failing_retry_chunk cs n) with
      | some c => c
      | none => failing_retry_chunk cs n

/-- Total number of times a chunk whose extraction always fails (and whose
record is always found) has been sent to the worker channel after `n` worker
iterations: 1 initial dispatch plus one resend per iteration. -/
def failing_retry_sends (cs : ChunkStateM) : Nat → Nat
  | 0 => 1
  | n + 1 => failing_retry_sends cs n +
      (match worker_iteration_resend false true (failing_retry_chunk cs n) with
       | some _ => 1
       | none => 0)

/-! ## `pipeline/pipeline.rs` intake front, `status_service.rs`,
`error_reporter.rs` (claim C10) -/

/-- Model of `pipeline.rs::sanitize_text`: remove `\r`, then trim. -/
def sanitize_text (input : String) : String :=
  rust_trim_str (String.mk (input.data.filter (fun c => c ≠ '\r')))

/-- Model of `status_service.rs::PendingDocument`. -/
structure PendingDocumentM where
  id : String
  content : String
  summary : String
  length : Int
  file_path : String
  track_id : String
  created_at : String
deriving Repr

/-- Application-level state touched by the intake path: the stores, the files
moved into `__enqueued__`, and the scheduler's job queue. -/
structure PipeStateM where
  full_docs : KvFileM
  text_chunks : KvFileM
  full_entities : KvFileM
  full_relations : KvFileM
  llm_response_cache : KvFileM
  doc_status : DocStatusFileM
  enqueued_files : List String
  scheduler_jobs : List (String × JobM)

/-- Model of `Pipeline::persist_all`: `sync_if_dirty` on every store in
order, propagating the first error. -/
def persist_all (writeOk : Bool) (st : PipeStateM) : Except String PipeStateM :=
  match kv_sync_if_dirty writeOk st.full_docs with
  | (_, .error e) => .error e
  | (fd, .ok _) =>
    match kv_sync_if_dirty writeOk st.text_chunks with
    | (_, .error e) => .error e
    | (tc, .ok _) =>
      match kv_sync_if_dirty writeOk st.full_entities with
      | (_, .error e) => .error e
      | (fe, .ok _) =>
        match kv_sync_if_dirty writeOk st.full_relations with
        | (_, .error e) => .error e
        | (fr, .ok _) =>
          match kv_sync_if_dirty writeOk st.llm_response_cache with
          | (_, .error e) => .error e
          | (lc, .ok _) =>
            match doc_sync_if_dirty writeOk st.doc_status with
            | (_, .error e) => .error e
            | (ds, .ok _) =>
              .ok { st with full_docs := fd, text_chunks := tc, full_entities := fe,
                            full_relations := fr, llm_response_cache := lc, doc_status := ds }

/-- Model of `DocStatusService::enqueue_pending`: write the `full_docs`
content payload and the PENDING status records together. -/
def enqueue_pending (writeOk : Bool) (nowUnix : Int) (documents : List PendingDocumentM)
    (full_docs : KvFileM) (ds : DocStatusFileM) :
    (KvFileM × DocStatusFileM) × Except String Unit :=
  if documents.isEmpty then ((full_docs, ds), .ok ())
  else
    let docs_payload := documents.map (fun d => (d.id, Json.obj [("content", .str d.content)]))
    let status_payload : List (String × DocProcessingStatusM) := documents.map (fun d =>
      (d.id,
       { id := some d.id
         status := .PENDING
         content_summary := some d.summary
         content_length := some d.length
         created_at := some d.created_at
         updated_at := some d.created_at
         file_path := some d.file_path
         track_id := some d.track_id
         chunks_list := some []
         metadata := none
         error_msg := none }))
    let full_docs := kv_upsert false nowUnix full_docs docs_payload
    let r := doc_status_upsert writeOk ds status_payload
    ((full_docs, r.1), r.2)

/-- Model of `Pipeline::enqueue_documents` (pipeline.rs): sanitize and
deduplicate contents, keep only content hashes not already present in the
doc-status store, compute summaries (`none` from `summarize_content` models
its panic and is surfaced as an error), enqueue the PENDING records, then
`persist_all`. `docs` are `(content, file_path)` pairs. -/
def enqueue_documents (h : String → String) (writeOk : Bool) (nowUnix : Int)
    (docs : List (String × String)) (track_id now : String) (st : PipeStateM) :
    Except String PipeStateM :=
  if docs.isEmpty then .ok st
  else
    let unique_contents := docs.foldl
      (fun (acc : List (String × String)) d =>
        let cleaned := sanitize_text d.1
        if cleaned.isEmpty then acc
        else if (acc.lookup cleaned).isSome then acc
        else acc ++ [(cleaned, d.2)])
      []
    if unique_contents.isEmpty then .ok st
    else
      let contents := unique_contents.map (fun p => (compute_mdhash_id h p.1 "doc-", p))
      let unique_ids := (contents.map (fun p => p.1)).filter
        (fun k => (st.doc_status.data.lookup k).isNone)
      if unique_ids.isEmpty then .ok st
      else
        let pendingE : Except String (List PendingDocumentM) := unique_ids.foldlM
          (fun acc id =>
            match contents.lookup id with
            | none => pure acc
            | some p =>
                match summarize_content p.1.data with
                | none => .error "panicked: byte index 200 is not a char boundary"
                | some summ =>
                    pure (acc ++ [{ id := id, content := p.1,
                                    summary := String.mk summ,
                                    length := (p.1.data.length : Int),
                                    file_path := p.2, track_id := track_id,
                                    created_at := now }]))
          []
        match pendingE with
        | .error e => .error e
        | .ok pending =>
            match enqueue_pending writeOk nowUnix pending st.full_docs st.doc_status with
            | (_, .error e) => .error e
            | ((fd, ds), .ok _) =>
                persist_all writeOk { st with full_docs := fd, doc_status := ds }

/-- Model of `ErrorReporter::record`: build the synthetic FAILED doc-status
record keyed `"error-" ++ sha256_hex("error-{track_id}-{filename}")` and
upsert it into the doc-status store. -/
def error_reporter_record (h : String → String) (writeOk : Bool)
    (filename track_id error_type err_msg now : String) (ds : DocStatusFileM) :
    DocStatusFileM × Except String Unit :=
  let error_doc : DocProcessingStatusM :=
    { id := none
      status := .FAILED
      content_summary := some (error_type ++ " failed for " ++ filename)
      content_length := some 0
      created_at := some now
      updated_at := some now
      file_path := some filename
      track_id := some track_id
      chunks_list := some []
      metadata := some (Json.obj
        [("error_type", .str error_type), ("error_message", .str err_msg)])
      error_msg := some err_msg }
  let doc_id := compute_mdhash_id h ("error-" ++ track_id ++ "-" ++ filename) "error-"
  doc_status_upsert writeOk ds [(doc_id, error_doc)]

/-- Model of `Pipeline::enqueue_file` (pipeline.rs). The extractor is a trait
object in the source; its outcome is the `extract_result` parameter. On
success: enqueue the document and move the file into `__enqueued__` (a failed
move is only logged). On extraction failure: record the error through the
error reporter and propagate only an error of that write; the generated or
supplied `track_id` is returned in every non-error case. -/
def enqueue_file (h : String → String) (writeOk : Bool)
    (extract_result : Except String String) (file_name : String)
    (track_id_opt : Option String) (generated_track_id : String)
    (nowUnix : Int) (now : String) (st : PipeStateM) :
    Except String (String × PipeStateM) :=
  let track_id := track_id_opt.getD generated_track_id
  match extract_result with
  | .ok content =>
      match enqueue_documents h writeOk nowUnix [(content, file_name)] track_id now st with
      | .error e => .error e
      | .ok st2 =>
          .ok (track_id, { st2 with enqueued_files := st2.enqueued_files ++ [file_name] })
  | .error err =>
      match error_reporter_record h writeOk file_name track_id "file_extraction" err now
          st.doc_status with
      | (_, .error e) => .error e
      | (ds2, .ok _) => .ok (track_id, { st with doc_status := ds2 })

/-! ## Auxiliary definitions used in statements and instantiations -/

/-- A value in the legacy nested cache form: an object whose values all
contain a `return` field (the per-value guard of the migration loop). -/
def legacy_obj (v : Json) : Bool :=
  match v with
  | .obj inner => is_legacy_cache_structure inner
  | _ => false

/-- Number of nested entries contributed by one top-level value. -/
def inner_len (v : Json) : Nat :=
  match v with
  | .obj inner => inner.length
  | _ => 0

/-- A concrete total tokenizer (one token per character, decode inverts it)
used to instantiate the chunking theorem on a concrete input. -/
def sample_tokenizer : TokenizerM :=
  ⟨fun s => s.data.map Char.toNat, fun l => .ok (String.mk (l.map Char.ofNat))⟩

/-- Spec-side flattening of one nested entry, following the spec's words: an
object entry `{hash → entry_obj}` of mode `mode` becomes
`("{mode}:{cache_type}:{hash}", entry_obj)` with the value object preserved;
a non-object entry keeps its own hash key (as the migration loop does). -/
def spec_flatten_entry (mode : String) (e : String × Json) : String × Json :=
  match e.2 with
  | .obj o => (generate_cache_key mode (cache_type_of o) e.1, Json.obj o)
  | other => (e.1, other)

/-- Spec-side flattening of one legacy value's nested map. -/
def spec_flatten_value (mode : String) (inner : List (String × Json)) :
    List (String × Json) :=
  inner.map (spec_flatten_entry mode)

/-- Spec-side flattening of a whole legacy store, following the spec's words:
every nested entry `{mode → {hash → {...}}}` is rewritten to its flat key
with its value object preserved; a non-object top-level value is carried over
unchanged. The migrated map is compared against this definition. -/
def spec_flatten_legacy (data : List (String × Json)) : List (String × Json) :=
  data.flatMap (fun p =>
    match p.2 with
    | .obj inner => spec_flatten_value p.1 inner
    | other => [(p.1, other)])

/-! ## Helper lemmas -/

lemma update_first_map {α β : Type} (p : α → Bool) (f : α → α) (g : α → β)
    (hcomm : ∀ x, g (f x) = g x) (l : List α) :
    (update_first p f l).map g = l.map g := by
  induction l with
  | nil => rfl
  | cons x xs ih =>
      simp only [update_first]
      by_cases hx : p x
      · simp [hx, hcomm]
      · simp [hx, ih]

lemma failing_retry_invariant (cs : ChunkStateM) (n : Nat) :
    failing_retry_sends cs n = n + 1 ∧ failing_retry_chunk cs n = cs := by
  induction n with
  | zero => exact ⟨rfl, rfl⟩
  | succ n ih =>
      simp [failing_retry_sends, failing_retry_chunk, worker_iteration_resend, ih.1, ih.2]

lemma assoc_insert_lookup_self {α : Type} (m : List (String × α)) (k : String) (v : α) :
    (assoc_insert m k v).lookup k = some v := by
  induction m with
  | nil => simp [assoc_insert, List.lookup]
  | cons p rest ih =>
      obtain ⟨kp, vp⟩ := p
      by_cases hp : kp = k
      · subst hp; simp [assoc_insert, List.lookup]
      · have h1 : (k == kp) = false := by simp [Ne.symm hp]
        simp [assoc_insert, List.lookup, hp, h1, ih]

lemma assoc_insert_lookup_ne {α : Type} (m : List (String × α)) (k : String) (v : α)
    (k' : String) (hne : k' ≠ k) : (assoc_insert m k v).lookup k' = m.lookup k' := by
  induction m with
  | nil =>
      have h1 : (k' == k) = false := by simp [hne]
      simp [assoc_insert, List.lookup, h1]
  | cons p rest ih =>
      obtain ⟨kp, vp⟩ := p
      by_cases hp : kp = k
      · subst hp
        have h1 : (k' == kp) = false := by simp [hne]
        simp [assoc_insert, List.lookup, h1]
      · simp [assoc_insert, List.lookup, hp, ih]

lemma assoc_insert_fresh {α : Type} (m : List (String × α)) (k : String) (v : α)
    (h : k ∉ m.map Prod.fst) : assoc_insert m k v = m ++ [(k, v)] := by
  induction m with
  | nil => rfl
  | cons p rest ih =>
      have hp : p.1 ≠ k := by
        intro he
        exact h (by simp [he])
      simp only [assoc_insert, hp, if_false]
      rw [ih (by intro hm; exact h (by simp [hm]))]
      rfl

lemma lookup_eq_of_mem_nodup {α : Type} {l : List (String × α)} {k : String} {v : α}
    (hnd : (l.map Prod.fst).Nodup) (hmem : (k, v) ∈ l) : l.lookup k = some v := by
  induction l with
  | nil => simp at hmem
  | cons p rest ih =>
      obtain ⟨kp, vp⟩ := p
      simp only [List.map_cons, List.nodup_cons] at hnd
      rcases List.mem_cons.mp hmem with he | he
      · rw [Prod.ext_iff] at he
        obtain ⟨h1, h2⟩ := he
        simp only at h1 h2
        subst h1
        subst h2
        simp [List.lookup]
      · have hk : k ≠ kp := by
          intro hq
          subst hq
          exact hnd.1 (List.mem_map_of_mem Prod.fst he)
        have hbk : (k == kp) = false := by simp [hk]
        simp only [List.lookup, hbk]
        exact ih hnd.2 he

lemma doc_record_of_status_status (s : DocProcessingStatusM) :
    (doc_record_of_status s).status = s.status := by
  simp only [doc_record_of_status, DocRecordM.normalize]
  split <;> split <;> rfl

lemma migrate_entry_fold_fst (mode : String) (acc : List (String × Json) × Nat)
    (e : String × Json) :
    (migrate_entry_fold mode acc e).1
      = assoc_insert acc.1 (spec_flatten_entry mode e).1 (spec_flatten_entry mode e).2 := by
  obtain ⟨hash, entry⟩ := e
  cases entry <;> rfl

lemma entry_fold_eq_append (mode : String) (inner : List (String × Json)) :
    ∀ acc : List (String × Json) × Nat,
      (acc.1.map Prod.fst ++ (spec_flatten_value mode inner).map Prod.fst).Nodup →
      (inner.foldl (migrate_entry_fold mode) acc).1
        = acc.1 ++ spec_flatten_value mode inner := by
  induction inner with
  | nil =>
      intro acc _
      simp [spec_flatten_value]
  | cons e rest ih =>
      intro acc h
      rw [show spec_flatten_value mode (e :: rest)
          = spec_flatten_entry mode e :: spec_flatten_value mode rest from rfl] at h
      have hfresh : (spec_flatten_entry mode e).1 ∉ acc.1.map Prod.fst := by
        intro hin
        rw [List.map_cons, List.nodup_append] at h
        exact h.2.2 hin (by simp)
      have hstep : (migrate_entry_fold mode acc e).1
          = acc.1 ++ [spec_flatten_entry mode e] := by
        rw [migrate_entry_fold_fst, assoc_insert_fresh _ _ _ hfresh]
      have hnd2 : ((migrate_entry_fold mode acc e).1.map Prod.fst
          ++ (spec_flatten_value mode rest).map Prod.fst).Nodup := by
        rw [hstep]
        simpa [List.map_append, List.append_assoc] using h
      simp only [List.foldl_cons]
      rw [ih _ hnd2, hstep]
      simp [spec_flatten_value]

lemma value_fold_eq_append (data : List (String × Json)) :
    ∀ acc : List (String × Json) × Nat,
      (∀ p ∈ data, legacy_obj p.2 = true) →
      (acc.1.map Prod.fst ++ (spec_flatten_legacy data).map Prod.fst).Nodup →
      (data.foldl migrate_value_fold acc).1 = acc.1 ++ spec_flatten_legacy data := by
  induction data with
  | nil =>
      intro acc _ _
      simp [spec_flatten_legacy]
  | cons kv rest ih =>
      intro acc hleg h
      obtain ⟨mode, v⟩ := kv
      have hl : legacy_obj v = true := hleg (mode, v) (by simp)
      cases v with
      | obj inner =>
          have hlegi : is_legacy_cache_structure inner = true := hl
          have hflatten_cons : spec_flatten_legacy ((mode, Json.obj inner) :: rest)
              = spec_flatten_value mode inner ++ spec_flatten_legacy rest := by
            simp [spec_flatten_legacy]
          rw [hflatten_cons] at h ⊢
          have hstep : migrate_value_fold acc (mode, Json.obj inner)
              = inner.foldl (migrate_entry_fold mode) acc := by
            show (if is_legacy_cache_structure inner = true then _ else _) = _
            rw [if_pos hlegi]
          have hh : ((acc.1.map Prod.fst ++ (spec_flatten_value mode inner).map Prod.fst)
              ++ (spec_flatten_legacy rest).map Prod.fst).Nodup := by
            simpa [List.map_append, List.append_assoc] using h
          have hnd1 : (acc.1.map Prod.fst
              ++ (spec_flatten_value mode inner).map Prod.fst).Nodup :=
            List.Nodup.sublist (List.sublist_append_left _ _) hh
          have hinner := entry_fold_eq_append mode inner acc hnd1
          have hnd2 : ((inner.foldl (migrate_entry_fold mode) acc).1.map Prod.fst
              ++ (spec_flatten_legacy rest).map Prod.fst).Nodup := by
            rw [hinner]
            simpa [List.map_append, List.append_assoc] using h
          simp only [List.foldl_cons]
          rw [hstep, ih _ (fun p hp => hleg p (by simp [hp])) hnd2, hinner]
          simp [List.append_assoc]
      | null => exact Bool.noConfusion hl
      | bool b => exact Bool.noConfusion hl
      | num n => exact Bool.noConfusion hl
      | str s => exact Bool.noConfusion hl
      | arr a => exact Bool.noConfusion hl

lemma mem_spec_flatten_legacy {data : List (String × Json)} {mode : String}
    {inner : List (String × Json)} {hash : String} {o : List (String × Json)}
    (hmem : (mode, Json.obj inner) ∈ data) (hent : (hash, Json.obj o) ∈ inner) :
    (generate_cache_key mode (cache_type_of o) hash, Json.obj o)
      ∈ spec_flatten_legacy data := by
  apply List.mem_flatMap.mpr
  refine ⟨(mode, Json.obj inner), hmem, ?_⟩
  show _ ∈ spec_flatten_value mode inner
  have he : spec_flatten_entry mode (hash, Json.obj o)
      = (generate_cache_key mode (cache_type_of o) hash, Json.obj o) := rfl
  rw [← he]
  exact List.mem_map_of_mem _ hent


lemma is_legacy_entry_obj {inner : List (String × Json)}
    (hleg : is_legacy_cache_structure inner = true) {hash : String} {entry : Json}
    (hmem : (hash, entry) ∈ inner) : ∃ o, entry = Json.obj o := by
  have h2 := List.all_eq_true.mp hleg (hash, entry) hmem
  cases entry with
  | obj o => exact ⟨o, rfl⟩
  | null => exact Bool.noConfusion h2
  | bool b => exact Bool.noConfusion h2
  | num n => exact Bool.noConfusion h2
  | str s => exact Bool.noConfusion h2
  | arr a => exact Bool.noConfusion h2

lemma is_legacy_tail {e : String × Json} {rest : List (String × Json)}
    (hleg : is_legacy_cache_structure (e :: rest) = true) :
    is_legacy_cache_structure rest = true := by
  have := List.all_eq_true.mp hleg
  exact List.all_eq_true.mpr (fun x hx => this x (by simp [hx]))

lemma migrate_entry_fold_count (mode : String) (inner : List (String × Json))
    (acc : List (String × Json) × Nat)
    (hleg : is_legacy_cache_structure inner = true) :
    (inner.foldl (migrate_entry_fold mode) acc).2 = acc.2 + inner.length := by
  induction inner generalizing acc with
  | nil => simp
  | cons e rest ih =>
      obtain ⟨hash, entry⟩ := e
      obtain ⟨o, ho⟩ := is_legacy_entry_obj hleg (show (hash, entry) ∈ _ by simp)
      subst ho
      simp only [List.foldl_cons]
      rw [ih _ (is_legacy_tail hleg)]
      show (assoc_insert acc.1 _ _, acc.2 + 1).2 + rest.length = acc.2 + (rest.length + 1)
      simp
      omega

lemma migrate_value_fold_count (data : List (String × Json))
    (acc : List (String × Json) × Nat)
    (hleg : ∀ p ∈ data, legacy_obj p.2 = true) :
    (data.foldl migrate_value_fold acc).2
      = acc.2 + (data.map (fun p => inner_len p.2)).sum := by
  induction data generalizing acc with
  | nil => simp
  | cons kv rest ih =>
      obtain ⟨mode, v⟩ := kv
      have hkv : legacy_obj v = true := hleg (mode, v) (by simp)
      have hrest : ∀ p ∈ rest, legacy_obj p.2 = true := fun p hp => hleg p (by simp [hp])
      cases v with
      | obj inner =>
          have hlegi : is_legacy_cache_structure inner = true := hkv
          simp only [List.foldl_cons]
          rw [show migrate_value_fold acc (mode, Json.obj inner)
              = inner.foldl (migrate_entry_fold mode) acc by
            show (if is_legacy_cache_structure inner = true then _ else _) = _
            rw [if_pos hlegi]]
          rw [ih _ hrest, migrate_entry_fold_count _ _ _ hlegi]
          simp [inner_len]
          omega
      | null => exact Bool.noConfusion hkv
      | bool b => exact Bool.noConfusion hkv
      | num n => exact Bool.noConfusion hkv
      | str s => exact Bool.noConfusion hkv
      | arr a => exact Bool.noConfusion hkv

lemma emit_chunks_length (l : List (Nat × String)) (i : Nat) :
    (emit_chunks l i).length = l.length := by
  induction l generalizing i with
  | nil => rfl
  | cons p rest ih => simp [emit_chunks, ih]

lemma emit_chunks_get (l : List (Nat × String)) (i : Nat) (k : Nat)
    (hk : k < (emit_chunks l i).length) (hk2 : k < l.length) :
    (emit_chunks l i).get ⟨k, hk⟩
      = ⟨(l.get ⟨k, hk2⟩).1, rust_trim_str (l.get ⟨k, hk2⟩).2, i + k⟩ := by
  induction l generalizing i k with
  | nil => simp at hk2
  | cons p rest ih =>
      cases k with
      | zero => simp [emit_chunks]
      | succ j =>
          have hj : j < (emit_chunks rest (i + 1)).length := by
            simpa [emit_chunks, emit_chunks_length] using hk
          have hj2 : j < rest.length := by simpa using hk2
          show (emit_chunks rest (i + 1)).get ⟨j, hj⟩ = _
          rw [ih (i + 1) j hj hj2]
          congr 1
          omega

lemma window_slices_spec (t : TokenizerM) (toks : List Nat) (M s : Nat)
    (hdec : ∀ l, ∃ str, t.decode l = Except.ok str)
    (hs : 0 < s) (hsM : s ≤ M) :
    ∀ (n start : Nat), toks.length - start = n → start < toks.length →
    ∃ ws, window_slices t toks M s start = .ok ws ∧
      ws ≠ [] ∧
      (∀ k (hk : k < ws.length),
        (ws.get ⟨k, hk⟩).1 = min (start + k * s + M) toks.length - (start + k * s)) ∧
      (∀ k, k + 1 < ws.length → start + k * s + M < toks.length) ∧
      (∀ p, start ≤ p → p < toks.length →
        ∃ k, k < ws.length ∧ start + k * s ≤ p ∧ p < start + k * s + M) := by
  intro n
  induction n using Nat.strong_induction_on with
  | _ n ih =>
      intro start hn hstart
      obtain ⟨str, hstr⟩ := hdec ((toks.drop start).take (min (start + M) toks.length - start))
      rw [window_slices]
      rw [dif_pos ⟨hstart, hs⟩]
      simp only [hstr]
      by_cases he : min (start + M) toks.length = toks.length
      · rw [if_pos he]
        refine ⟨[(min (start + M) toks.length - start, str)], rfl, by simp, ?_, ?_, ?_⟩
        · intro k hk
          have hk0 : k = 0 := by simpa using Nat.lt_one_iff.mp (by simpa using hk)
          subst hk0
          simp
        · intro k hk
          simp at hk
        · intro p hp hpL
          exact ⟨0, by simp, by simpa using hp, by simp; omega⟩
      · rw [if_neg he]
        have heM : start + M < toks.length := by omega
        have hstart2 : start + s < toks.length := by omega
        obtain ⟨ws', hws', hne', hget', hbound', hcov'⟩ :=
          ih (toks.length - (start + s)) (by omega) (start + s) rfl hstart2
        rw [hws']
        refine ⟨(min (start + M) toks.length - start, str) :: ws', rfl, by simp, ?_, ?_, ?_⟩
        · intro k hk
          cases k with
          | zero => simp
          | succ j =>
              have hj : j < ws'.length := by simpa using hk
              show (ws'.get ⟨j, hj⟩).1 = _
              rw [hget' j hj]
              have harith : start + s + j * s = start + (j + 1) * s := by ring
              rw [harith]
        · intro k hk
          cases k with
          | zero => simpa using heM
          | succ j =>
              have hj : j + 1 < ws'.length := by simpa using hk
              have := hbound' j hj
              have harith : start + s + j * s = start + (j + 1) * s := by ring
              omega
        · intro p hp hpL
          by_cases hps : p < start + s
          · exact ⟨0, by simp, by simpa using hp, by simp; omega⟩
          · obtain ⟨j, hj, h1, h2⟩ := hcov' p (by omega) hpL
            refine ⟨j + 1, by simpa using hj, ?_, ?_⟩
            · have harith : start + s + j * s = start + (j + 1) * s := by ring
              omega
            · have harith : start + s + j * s = start + (j + 1) * s := by ring
              omega

/-! ## Claim theorems -/

/-- Claim C1 (code_bug). The claim says the scheduler rolls a document up to
PROCESSED / FAILED / PARTIALLY_FAILED when the last chunk of its job becomes
terminal. The code performs no rollup at all: `process_chunk_result` leaves
the doc-status map untouched for every input, never changes any job's status
(so `Queue::mark_done` / `mark_failed` are dead code), and the `DocStatus`
enum does not even have a `PARTIALLY_FAILED` variant. -/
theorem C1_scheduler_performs_no_rollup (h : String → String) (now : Int)
    (st : SchedulerStateM) (jr : JobResultM) :
    (process_chunk_result h now st jr).doc_status = st.doc_status ∧
    ((process_chunk_result h now st jr).jobs_map.map (fun p => (p.1, p.2.job_status))
      = st.jobs_map.map (fun p => (p.1, p.2.job_status))) ∧
    (∀ s : DocStatusM,
      s = .PENDING ∨ s = .PROCESSING ∨ s = .PROCESSED ∨ s = .FAILED ∨ s = .ALL) := by
  refine ⟨rfl, ?_, ?_⟩
  · show (update_first (fun pr => pr.1 == jr.job_id) _ st.jobs_map).map _ = _
    apply update_first_map
    intro x
    rfl
  · intro s; cases s <;> simp

/-- Claim C2 (code_bug). The chunk-selection filter of
`get_pending_chunks_for_doc` is `status == "Pending" || status == "Failed" &&
full_doc_id == doc_id`; `&&` binds tighter than `||` in Rust, so a `Pending`
chunk of ANY document is selected. Scheduling `docA` picks up the `Pending`
chunk of `docB` (first conjunct), while a `Failed` chunk of `docB` is
correctly excluded (fourth conjunct), pinning the precedence. -/
theorem C2_pending_chunk_of_other_document_selected :
    (get_pending_chunks_for_doc
        [("chunk-x", Json.obj [("status", .str "Pending"), ("full_doc_id", .str "docB"),
          ("content", .str "hello"), ("chunk_order_index", .num 0), ("tokens", .num 5)])]
        "docA"
      = [ChunkR.mk "chunk-x" "hello" 0 5]) ∧
    ((Json.obj [("status", Json.str "Pending"), ("full_doc_id", Json.str "docB"),
        ("content", .str "hello"), ("chunk_order_index", .num 0),
        ("tokens", .num 5)]).getField "full_doc_id" = some (Json.str "docB")) ∧
    ("docB" ≠ "docA") ∧
    (get_pending_chunks_for_doc
        [("chunk-y", Json.obj [("status", .str "Failed"), ("full_doc_id", .str "docB"),
          ("content", .str "hello"), ("chunk_order_index", .num 0), ("tokens", .num 5)])]
        "docA"
      = []) := by
  exact ⟨rfl, rfl, by decide, rfl⟩

/-- Claim C3 (code_bug). The claim says a chunk is dispatched at most
`max_retries + 1` times because the worker increments `current_retry` and
compares it against `max_retries`. In the code the failure path re-sends the
identical dispatch: `current_retry` is never incremented (the resent chunk
state equals the received one), so for an always-failing chunk the send count
after `n` worker iterations is `n + 1`, unbounded — after 11 iterations the
chunk materialized by `chunk_to_chunk_state` (`max_retries = 10`,
`current_retry = 0`) has been dispatched 12 > 10 + 1 times. -/
theorem C3_worker_retry_unbounded :
    (∀ (chunks : List ChunkR) (d now : String),
      (chunk_to_chunk_state chunks d now).map (fun cs => (cs.max_retries, cs.current_retry))
        = chunks.map (fun _ => (10, 0))) ∧
    (∀ (cs : ChunkStateM) (n : Nat),
      failing_retry_sends cs n = n + 1 ∧ failing_retry_chunk cs n = cs) ∧
    (∀ cs : ChunkStateM, 10 + 1 < failing_retry_sends cs 11) := by
  refine ⟨?_, failing_retry_invariant, ?_⟩
  · intro chunks d now
    induction chunks with
    | nil => rfl
    | cons c cs ih => exact congrArg (List.cons (10, 0)) ih
  · intro cs
    rw [(failing_retry_invariant cs 11).1]
    omega

/-- Claim C4, counterexample. The claim says a failed disk write inside
`sync_if_dirty` leaves the dirty flag set. Both stores run
`dirty.swap(false)` BEFORE attempting the write: on a store that is dirty and
whose write fails, the flag is `false` after the call for the JSON KV store
and the doc-status store alike. -/
theorem C4_counterexample_dirty_cleared_on_failed_write :
    (kv_sync_if_dirty false ⟨[("k", Json.null)], true, []⟩).1.dirty = false ∧
    (doc_sync_if_dirty false ⟨[], true, []⟩).1.dirty = false ∧
    (kv_sync_if_dirty false ⟨[("k", Json.null)], true, []⟩).2
      = .error "failed to write kv store" ∧
    (doc_sync_if_dirty false ⟨[], true, []⟩).2 = .error "failed to write doc status" :=
  ⟨rfl, rfl, rfl, rfl⟩

/-- Claim C4, amended. For both stores, when the disk write inside
`sync_if_dirty` fails the call returns the error with the dirty flag already
cleared (the swap precedes the write) and never restored, so a subsequent
`sync_if_dirty` — even with a healthy disk — is a no-op and does not retry
the write; the in-memory map and the on-disk snapshot are unchanged by the
failure. -/
theorem C4_sync_failure_leaves_flag_clear (f : KvFileM) (g : DocStatusFileM)
    (hf : f.dirty = true) (hg : g.dirty = true) :
    ((kv_sync_if_dirty false f).1.dirty = false ∧
     (kv_sync_if_dirty false f).1.data = f.data ∧
     (kv_sync_if_dirty false f).1.disk = f.disk ∧
     (∃ e, (kv_sync_if_dirty false f).2 = .error e) ∧
     kv_sync_if_dirty true (kv_sync_if_dirty false f).1
       = ((kv_sync_if_dirty false f).1, .ok ())) ∧
    ((doc_sync_if_dirty false g).1.dirty = false ∧
     (doc_sync_if_dirty false g).1.data = g.data ∧
     (doc_sync_if_dirty false g).1.disk = g.disk ∧
     (∃ e, (doc_sync_if_dirty false g).2 = .error e) ∧
     doc_sync_if_dirty true (doc_sync_if_dirty false g).1
       = ((doc_sync_if_dirty false g).1, .ok ())) := by
  constructor
  · simp [kv_sync_if_dirty, hf]
  · simp [doc_sync_if_dirty, hg]

/-- Witness for the amended C4 theorem at a concrete dirty store. -/
theorem C4_sync_failure_leaves_flag_clear_witness :
    (⟨[("k", Json.null)], true, []⟩ : KvFileM).dirty = true ∧
    (⟨[], true, []⟩ : DocStatusFileM).dirty = true ∧
    (((kv_sync_if_dirty false ⟨[("k", Json.null)], true, []⟩).1.dirty = false ∧
      (kv_sync_if_dirty false ⟨[("k", Json.null)], true, []⟩).1.data = [("k", Json.null)] ∧
      (kv_sync_if_dirty false ⟨[("k", Json.null)], true, []⟩).1.disk = [] ∧
      (∃ e, (kv_sync_if_dirty false ⟨[("k", Json.null)], true, []⟩).2 = .error e) ∧
      kv_sync_if_dirty true (kv_sync_if_dirty false ⟨[("k", Json.null)], true, []⟩).1
        = ((kv_sync_if_dirty false ⟨[("k", Json.null)], true, []⟩).1, .ok ())) ∧
     ((doc_sync_if_dirty false ⟨[], true, []⟩).1.dirty = false ∧
      (doc_sync_if_dirty false ⟨[], true, []⟩).1.data = [] ∧
      (doc_sync_if_dirty false ⟨[], true, []⟩).1.disk = [] ∧
      (∃ e, (doc_sync_if_dirty false ⟨[], true, []⟩).2 = .error e) ∧
      doc_sync_if_dirty true (doc_sync_if_dirty false ⟨[], true, []⟩).1
        = ((doc_sync_if_dirty false ⟨[], true, []⟩).1, .ok ()))) :=
  ⟨rfl, rfl, C4_sync_failure_leaves_flag_clear ⟨[("k", Json.null)], true, []⟩
    ⟨[], true, []⟩ rfl rfl⟩

/-- Claim C5 (code_bug). The claim says a relationship whose source or target
entity name is missing from the per-batch name→id map is logged and skipped.
In `process_chunk_result` such a relationship is NOT skipped: with no
extracted entities, the relationship A→B is still upserted into
`full_relations` with `source_entity_id` and `target_entity_id` serialized as
JSON null, while `full_entities` stays empty — a persisted relationship whose
entity ids exist nowhere. -/
theorem C5_relationship_with_unknown_entity_persisted_null :
    ((process_chunk_result (fun s => s) 0 ⟨[], ⟨[], false, []⟩, ⟨[], false, []⟩, []⟩
        ⟨⟨[], [⟨"A", "B", [], "likes"⟩]⟩, "chunk-1", "job-1", "doc-1", 0⟩).full_relations.data.lookup
      "rel-doc-1:A:B").bind (fun v => v.getField "source_entity_id") = some Json.null ∧
    ((process_chunk_result (fun s => s) 0 ⟨[], ⟨[], false, []⟩, ⟨[], false, []⟩, []⟩
        ⟨⟨[], [⟨"A", "B", [], "likes"⟩]⟩, "chunk-1", "job-1", "doc-1", 0⟩).full_relations.data.lookup
      "rel-doc-1:A:B").bind (fun v => v.getField "target_entity_id") = some Json.null ∧
    (process_chunk_result (fun s => s) 0 ⟨[], ⟨[], false, []⟩, ⟨[], false, []⟩, []⟩
        ⟨⟨[], [⟨"A", "B", [], "likes"⟩]⟩, "chunk-1", "job-1", "doc-1", 0⟩).full_entities.data
      = [] :=
  ⟨rfl, rfl, rfl⟩

/-- Claim C6, counterexample. In a worker iteration whose extraction
succeeded, whose chunk record was found and upserted, but whose disk flush
failed, the `JobResult` is still sent: the trace contains `send_result` but
no successful `sync_chunks` event, so the scheduler observes the result
without the durable status update having happened. A missing chunk record
(second group) sends the result without even attempting the upsert. -/
theorem C6_counterexample_result_sent_without_flush :
    ((worker_iteration_trace true true true false).contains .send_result = true ∧
     (worker_iteration_trace true true true false).contains (.sync_chunks true) = false ∧
     (worker_iteration_trace true true true false).contains (.sync_chunks false) = true) ∧
    ((worker_iteration_trace true false true true)
      = [.got_by_id false, .send_result]) :=
  ⟨⟨rfl, rfl, rfl⟩, rfl⟩

/-- Claim C6, amended. When the chunk record is found and both the upsert and
the flush succeed, the worker's trace is exactly read–upsert–flush–send, so
the durable Success status strictly precedes the `JobResult` send; on
extraction failure no `JobResult` is sent at all. (When the record is missing
or the upsert/flush fails, the worker logs the storage error and still sends
the result — the counterexample.) -/
theorem C6_flush_precedes_send_when_persistence_succeeds
    (found upsert_ok sync_ok : Bool)
    (hfound : found = true) (hup : upsert_ok = true) (hsync : sync_ok = true) :
    (worker_iteration_trace true found upsert_ok sync_ok
      = [.got_by_id true, .upsert_chunk true, .sync_chunks true, .send_result]) ∧
    (∀ f u s, WEventM.send_result ∉ worker_iteration_trace false f u s) := by
  subst hfound hup hsync
  refine ⟨rfl, ?_⟩
  intro f u s
  cases f <;> cases u <;> cases s <;> decide

/-- Witness for the amended C6 theorem at the all-successful instance. -/
theorem C6_flush_precedes_send_witness :
    (true = true) ∧ (true = true) ∧ (true = true) ∧
    ((worker_iteration_trace true true true true
      = [.got_by_id true, .upsert_chunk true, .sync_chunks true, .send_result]) ∧
     (∀ f u s, WEventM.send_result ∉ worker_iteration_trace false f u s)) :=
  ⟨rfl, rfl, rfl, C6_flush_precedes_send_when_persistence_succeeds true true true rfl rfl rfl⟩

/-- Claim C7 (code_bug). `summarize_content` slices the first 200 BYTES of
the trimmed content (`&trimmed[..200]`). On 67 euro signs (201 UTF-8 bytes,
3 bytes each) byte index 200 falls inside the 67th character, so the slice
panics (`none` in the model) — the claim says the computation succeeds on all
inputs. The `content_length` computation is indeed the code-point count. -/
theorem C7_summarize_content_panics_on_non_boundary :
    summarize_content (List.replicate 67 '€') = none ∧
    (∀ content : List Char, content_length content = content.length) :=
  ⟨rfl, fun _ => rfl⟩

/-- Claim C8 (confirmed). For the no-delimiter branch with token length
`L > 0` and `V < M`: chunking succeeds and the emitted chunks are exactly the
sliding windows — chunk `k` starts at `k·(M−V)`, `chunk_order_index = k`, its
reported token count is its window width `min (k·(M−V)+M) L − k·(M−V) ≤ M`,
the windows cover `[0, L)`, and each consecutive pair overlaps by exactly `V`
tokens (the non-last window `k` satisfies `k·(M−V)+M < L`, and its end minus
window `k+1`'s start is `V`). -/
theorem C8_chunk_windows (t : TokenizerM) (content : String) (V M : Nat)
    (hdec : ∀ l, ∃ s, t.decode l = Except.ok s)
    (hVM : V < M)
    (hL : 0 < (t.encode content).length) :
    ∃ cs, chunking_by_token_size t content none false V M = .ok cs ∧
      cs ≠ [] ∧
      (∀ k (hk : k < cs.length),
        (cs.get ⟨k, hk⟩).chunk_order_index = k ∧
        (cs.get ⟨k, hk⟩).tokens
          = min (k * (M - V) + M) (t.encode content).length - k * (M - V) ∧
        (cs.get ⟨k, hk⟩).tokens ≤ M) ∧
      (∀ p, p < (t.encode content).length →
        ∃ k, k < cs.length ∧ k * (M - V) ≤ p ∧
          p < min (k * (M - V) + M) (t.encode content).length) ∧
      (∀ k, k + 1 < cs.length →
        k * (M - V) + M < (t.encode content).length ∧
        (k * (M - V) + M) - (k + 1) * (M - V) = V) := by
  have hnot : ¬(V ≥ M) := by omega
  have hs : 0 < M - V := by omega
  have hsM : M - V ≤ M := by omega
  obtain ⟨ws, hws, hne, hget, hbound, hcov⟩ :=
    window_slices_spec t (t.encode content) M (M - V) hdec hs hsM
      ((t.encode content).length - 0) 0 rfl (by omega)
  have hempty : (t.encode content).isEmpty = false := by
    cases hEnc : t.encode content with
    | nil => rw [hEnc] at hL; simp at hL
    | cons a l => rfl
  refine ⟨emit_chunks ws 0, ?_, ?_, ?_, ?_, ?_⟩
  · unfold chunking_by_token_size
    rw [if_neg hnot]
    simp only [hempty, Bool.false_eq_true, if_false, hws, Except.map]
  · intro hcs
    apply hne
    cases ws with
    | nil => rfl
    | cons a l => simp [emit_chunks] at hcs
  · intro k hk
    have hk2 : k < ws.length := by
      rwa [emit_chunks_length] at hk
    rw [emit_chunks_get ws 0 k hk hk2]
    refine ⟨by simp, ?_, ?_⟩
    · have := hget k hk2
      simpa using this
    · have := hget k hk2
      simp at this
      simp [this]
      omega
  · intro p hp
    obtain ⟨k, hkl, h1, h2⟩ := hcov p (by omega) hp
    refine ⟨k, by rwa [emit_chunks_length], by simpa using h1, by simp at h2 ⊢; omega⟩
  · intro k hk
    have hk2 : k + 1 < ws.length := by rwa [emit_chunks_length] at hk
    have hb := hbound k hk2
    constructor
    · simpa using hb
    · have h1 : (k + 1) * (M - V) = k * (M - V) + (M - V) := by ring
      rw [h1]
      omega

/-- Witness for C8 at a concrete tokenizer and input: `"abcd"` (4 tokens),
`max_tokens = 3`, `overlap = 1`. -/
theorem C8_chunk_windows_witness :
    (∀ l, ∃ s, sample_tokenizer.decode l = Except.ok s) ∧
    1 < 3 ∧
    0 < (sample_tokenizer.encode "abcd").length ∧
    (∃ cs, chunking_by_token_size sample_tokenizer "abcd" none false 1 3 = .ok cs ∧
      cs ≠ [] ∧
      (∀ k (hk : k < cs.length),
        (cs.get ⟨k, hk⟩).chunk_order_index = k ∧
        (cs.get ⟨k, hk⟩).tokens
          = min (k * (3 - 1) + 3) (sample_tokenizer.encode "abcd").length - k * (3 - 1) ∧
        (cs.get ⟨k, hk⟩).tokens ≤ 3) ∧
      (∀ p, p < (sample_tokenizer.encode "abcd").length →
        ∃ k, k < cs.length ∧ k * (3 - 1) ≤ p ∧
          p < min (k * (3 - 1) + 3) (sample_tokenizer.encode "abcd").length) ∧
      (∀ k, k + 1 < cs.length →
        k * (3 - 1) + 3 < (sample_tokenizer.encode "abcd").length ∧
        (k * (3 - 1) + 3) - (k + 1) * (3 - 1) = 1)) :=
  ⟨fun l => ⟨String.mk (l.map Char.ofNat), rfl⟩, by decide, by decide,
   C8_chunk_windows sample_tokenizer "abcd" 1 3
     (fun l => ⟨String.mk (l.map Char.ofNat), rfl⟩) (by decide) (by decide)⟩

/-- Claim C9, counterexample. A store whose single top-level value is in
legacy form (`{"a:b:c": {"h1": {"return": "x"}}}`, so the claim's hypothesis
holds) is returned UNMIGRATED and unpersisted, because the first key
`"a:b:c"` splits on `:` into three parts and trips the `looks_flat`
early-exit; the flat key `"a:b:c:extract:h1"` demanded by the claim is
absent. -/
theorem C9_counterexample_flat_looking_first_key_skips_migration :
    is_legacy_cache_structure [("h1", Json.obj [("return", Json.str "x")])] = true ∧
    colon_split_count "a:b:c" = 3 ∧
    migrate_legacy_cache_structure
        [("a:b:c", Json.obj [("h1", Json.obj [("return", Json.str "x")])])]
      = ([("a:b:c", Json.obj [("h1", Json.obj [("return", Json.str "x")])])], false) ∧
    (migrate_legacy_cache_structure
        [("a:b:c", Json.obj [("h1", Json.obj [("return", Json.str "x")])])]).1.lookup
      "a:b:c:extract:h1" = none :=
  ⟨rfl, rfl, rfl, rfl⟩

/-- Claim C9, amended. On initialize, when the loaded map is nonempty, its
FIRST key does not split on `:` into exactly three parts, every top-level
value is a map whose own values contain a `return` field, and the generated
flat keys `"{mode}:{cache_type}:{hash}"` are pairwise distinct (no
collisions), then the migrated map is EXACTLY the flattening of the store:
every nested entry `{mode → {hash → entry}}` is found under its flat key
with its value object preserved (with `cache_type` defaulting to
`"extract"`), and the migrated map is persisted to disk iff at least one
record was rewritten, i.e. iff some nested map is nonempty. -/
theorem C9_migration_flattens_legacy (data : List (String × Json))
    (hne : data ≠ [])
    (hflat : ∀ p, data.head? = some p → colon_split_count p.1 ≠ 3)
    (hleg : ∀ p ∈ data, legacy_obj p.2 = true)
    (hnodup : ((spec_flatten_legacy data).map Prod.fst).Nodup) :
    ((migrate_legacy_cache_structure data).1 = spec_flatten_legacy data) ∧
    (∀ mode inner, (mode, Json.obj inner) ∈ data →
      ∀ hash entry, (hash, entry) ∈ inner →
        ∃ o, entry = Json.obj o ∧
          (migrate_legacy_cache_structure data).1.lookup
              (generate_cache_key mode (cache_type_of o) hash) = some (Json.obj o)) ∧
    ((migrate_legacy_cache_structure data).2 = true ↔
      ∃ p ∈ data, inner_len p.2 ≠ 0) := by
  cases data with
  | nil => exact absurd rfl hne
  | cons p0 tl =>
      have hf : (colon_split_count p0.1 == 3) = false := by
        have := hflat p0 rfl
        simp [this]
      have hmig : migrate_legacy_cache_structure (p0 :: tl)
          = (((p0 :: tl).foldl migrate_value_fold ([], 0)).1,
             decide (0 < ((p0 :: tl).foldl migrate_value_fold ([], 0)).2)) := by
        unfold migrate_legacy_cache_structure
        simp [hf]
      have heq : (migrate_legacy_cache_structure (p0 :: tl)).1
          = spec_flatten_legacy (p0 :: tl) := by
        rw [hmig]
        have := value_fold_eq_append (p0 :: tl) ([], 0) hleg (by simpa using hnodup)
        simpa using this
      refine ⟨heq, ?_, ?_⟩
      · intro mode inner hmem hash entry hent
        have hlegv : legacy_obj (Json.obj inner) = true := hleg (mode, Json.obj inner) hmem
        have hlegi : is_legacy_cache_structure inner = true := hlegv
        obtain ⟨o, ho⟩ := is_legacy_entry_obj hlegi hent
        subst ho
        refine ⟨o, rfl, ?_⟩
        rw [heq]
        exact lookup_eq_of_mem_nodup hnodup (mem_spec_flatten_legacy hmem hent)
      · rw [hmig]
        rw [migrate_value_fold_count _ _ hleg]
        simp only [decide_eq_true_eq, Nat.zero_add]
        constructor
        · intro hpos
          by_contra hcon
          push_neg at hcon
          have hz : ((p0 :: tl).map (fun p => inner_len p.2)).sum = 0 := by
            apply List.sum_eq_zero
            intro x hx
            obtain ⟨p, hp, rfl⟩ := List.mem_map.mp hx
            exact hcon p hp
          omega
        · rintro ⟨p, hp, hpn⟩
          have hmem : inner_len p.2 ∈ (p0 :: tl).map (fun q => inner_len q.2) :=
            List.mem_map_of_mem _ hp
          have := List.single_le_sum (l := (p0 :: tl).map (fun q => inner_len q.2))
            (by intro x hx; omega) _ hmem
          omega

/-- Witness for the amended C9 theorem on the unit test's legacy store
`{"modeA": {"hash1": {"cache_type": "extract", "return": "value1"}}}`. -/
theorem C9_migration_flattens_legacy_witness :
    ([("modeA", Json.obj [("hash1",
        Json.obj [("cache_type", Json.str "extract"), ("return", Json.str "value1")])])]
      ≠ ([] : List (String × Json))) ∧
    (∀ p, ([("modeA", Json.obj [("hash1",
        Json.obj [("cache_type", Json.str "extract"), ("return", Json.str "value1")])])] :
          List (String × Json)).head? = some p → colon_split_count p.1 ≠ 3) ∧
    (∀ p ∈ ([("modeA", Json.obj [("hash1",
        Json.obj [("cache_type", Json.str "extract"), ("return", Json.str "value1")])])] :
          List (String × Json)), legacy_obj p.2 = true) ∧
    ((spec_flatten_legacy [("modeA", Json.obj [("hash1",
        Json.obj [("cache_type", Json.str "extract"), ("return", Json.str "value1")])])]).map
      Prod.fst).Nodup ∧
    (((migrate_legacy_cache_structure [("modeA", Json.obj [("hash1",
        Json.obj [("cache_type", Json.str "extract"), ("return", Json.str "value1")])])]).1
        = spec_flatten_legacy [("modeA", Json.obj [("hash1",
            Json.obj [("cache_type", Json.str "extract"), ("return", Json.str "value1")])])]) ∧
     (∀ mode inner, (mode, Json.obj inner) ∈ ([("modeA", Json.obj [("hash1",
        Json.obj [("cache_type", Json.str "extract"), ("return", Json.str "value1")])])] :
          List (String × Json)) →
      ∀ hash entry, (hash, entry) ∈ inner →
        ∃ o, entry = Json.obj o ∧
          (migrate_legacy_cache_structure [("modeA", Json.obj [("hash1",
              Json.obj [("cache_type", Json.str "extract"),
                ("return", Json.str "value1")])])]).1.lookup
              (generate_cache_key mode (cache_type_of o) hash) = some (Json.obj o)) ∧
     ((migrate_legacy_cache_structure [("modeA", Json.obj [("hash1",
        Json.obj [("cache_type", Json.str "extract"), ("return", Json.str "value1")])])]).2
        = true ↔
      ∃ p ∈ ([("modeA", Json.obj [("hash1",
        Json.obj [("cache_type", Json.str "extract"), ("return", Json.str "value1")])])] :
          List (String × Json)), inner_len p.2 ≠ 0)) := by
  refine ⟨by simp, ?_, ?_, by decide, ?_⟩
  · intro p hp
    simp only [List.head?_cons, Option.some_inj] at hp
    subst hp
    decide
  · intro p hp
    simp only [List.mem_singleton] at hp
    subst hp
    rfl
  · exact C9_migration_flattens_legacy _ (by simp)
      (by intro p hp
          simp only [List.head?_cons, Option.some_inj] at hp
          subst hp
          decide)
      (by intro p hp
          simp only [List.mem_singleton] at hp
          subst hp
          rfl)
      (by decide)

/-- Claim C10 (confirmed). When text extraction fails, `enqueue_file` still
returns `Ok` with the track id, changing nothing but the doc-status store,
which gains exactly the synthetic FAILED error record keyed
`"error-" ++ h("error-{track_id}-{filename}")` (every other key reads as
before); no document, chunk or scheduler job is created and the file is not
moved. An error is returned exactly when writing the error record fails. -/
theorem C10_enqueue_file_error_branch (h : String → String)
    (err file_name gen_tid now : String)
    (tid_opt : Option String) (nowUnix : Int) (st : PipeStateM) :
    (enqueue_file h true (.error err) file_name tid_opt gen_tid nowUnix now st
      = .ok (tid_opt.getD gen_tid,
          { st with doc_status :=
              (error_reporter_record h true file_name (tid_opt.getD gen_tid)
                "file_extraction" err now st.doc_status).1 })) ∧
    (((error_reporter_record h true file_name (tid_opt.getD gen_tid)
        "file_extraction" err now st.doc_status).1.data.lookup
          (compute_mdhash_id h ("error-" ++ (tid_opt.getD gen_tid) ++ "-" ++ file_name)
            "error-")).map (fun r => r.status) = some .FAILED) ∧
    (∀ k, k ≠ compute_mdhash_id h ("error-" ++ (tid_opt.getD gen_tid) ++ "-" ++ file_name)
        "error-" →
      (error_reporter_record h true file_name (tid_opt.getD gen_tid)
        "file_extraction" err now st.doc_status).1.data.lookup k
        = st.doc_status.data.lookup k) ∧
    (∃ e, enqueue_file h false (.error err) file_name tid_opt gen_tid nowUnix now st
      = .error e) := by
  refine ⟨rfl, ?_, ?_, ?_⟩
  · show ((assoc_insert st.doc_status.data _ _).lookup _).map _ = _
    rw [assoc_insert_lookup_self]
    simp [doc_record_of_status_status]
  · intro k hk
    show (assoc_insert st.doc_status.data _ _).lookup k = _
    exact assoc_insert_lookup_ne _ _ _ _ hk
  · exact ⟨"failed to write doc status", rfl⟩

/-- Closed instance of the C10 theorem: an empty-file extraction failure on
`"a.txt"` against empty stores. -/
theorem C10_enqueue_file_error_branch_witness :
    (enqueue_file (fun s => s) true (.error "file content is empty") "a.txt" none
        "upload-1" 0 "t"
        ⟨⟨[], false, []⟩, ⟨[], false, []⟩, ⟨[], false, []⟩, ⟨[], false, []⟩,
         ⟨[], false, []⟩, ⟨[], false, []⟩, [], []⟩
      = .ok ((none : Option String).getD "upload-1",
          { (⟨⟨[], false, []⟩, ⟨[], false, []⟩, ⟨[], false, []⟩, ⟨[], false, []⟩,
             ⟨[], false, []⟩, ⟨[], false, []⟩, [], []⟩ : PipeStateM) with doc_status :=
              (error_reporter_record (fun s => s) true "a.txt"
                ((none : Option String).getD "upload-1")
                "file_extraction" "file content is empty" "t" ⟨[], false, []⟩).1 })) ∧
    (((error_reporter_record (fun s => s) true "a.txt"
        ((none : Option String).getD "upload-1")
        "file_extraction" "file content is empty" "t" ⟨[], false, []⟩).1.data.lookup
          (compute_mdhash_id (fun s => s)
            ("error-" ++ ((none : Option String).getD "upload-1") ++ "-" ++ "a.txt")
            "error-")).map (fun r => r.status) = some .FAILED) ∧
    (∀ k, k ≠ compute_mdhash_id (fun s => s)
        ("error-" ++ ((none : Option String).getD "upload-1") ++ "-" ++ "a.txt")
        "error-" →
      (error_reporter_record (fun s => s) true "a.txt"
        ((none : Option String).getD "upload-1")
        "file_extraction" "file content is empty" "t" ⟨[], false, []⟩).1.data.lookup k
        = (⟨[], false, []⟩ : DocStatusFileM).data.lookup k) ∧
    (∃ e, enqueue_file (fun s => s) false (.error "file content is empty") "a.txt" none
        "upload-1" 0 "t"
        ⟨⟨[], false, []⟩, ⟨[], false, []⟩, ⟨[], false, []⟩, ⟨[], false, []⟩,
         ⟨[], false, []⟩, ⟨[], false, []⟩, [], []⟩
      = .error e) :=
  C10_enqueue_file_error_branch (fun s => s) "file content is empty" "a.txt" "upload-1"
    "t" none 0
    ⟨⟨[], false, []⟩, ⟨[], false, []⟩, ⟨[], false, []⟩, ⟨[], false, []⟩,
     ⟨[], false, []⟩, ⟨[], false, []⟩, [], []⟩

end KG
